import Mathlib

/-!
Verification of the voice-summary application (src/app.py).

The development shallowly embeds the program's own logic: the age-based
cleanup sweep over a category directory (`cleanup_old_files`), the startup
sweep over the audio and pdf categories, the 1000-character truncation in
`summarize_text`, the latin-1 normalization in `export_summary_to_pdf`,
the log append in `log_entry`, the log viewer `display_logs`, and the
audio upload handler with its extension dispatch and top-level error guard.

External collaborators (the Whisper transcription model, the Hugging Face
summarizer, pydub conversion, FPDF layout) are abstracted as function
parameters; everything the program itself computes is embedded from the
source. Text is modelled as `List Char` (Python strings), timestamps as
`Int` seconds.
-/

/-- A directory entry as seen by `os.listdir`: either a regular file with
its modification time, or a subdirectory with its own contained files
(name, mtime pairs). `os.path.isfile` distinguishes the two. -/
inductive Node where
  | file (mtime : Int)
  | dir (children : List (String × Int))
deriving DecidableEq

/-- `datetime.now() - timedelta(days=days)` with times in seconds:
the eviction cutoff used by `cleanup_old_files`. -/
def cutoffOf (now days : Int) : Int := now - days * 86400

/-- The loop body of `cleanup_old_files` (src/app.py lines 23-28), with
`os.remove` allowed to raise: `fails n = true` means deleting the file
named `n` raises. The Bool records whether the loop ran to completion
(no exception); the list is the resulting directory contents. A raised
exception propagates and aborts the loop: the failing file and every
entry after it are left as they were. -/
def sweepRun (cutoff : Int) (fails : String → Bool) :
    List (String × Node) → Bool × List (String × Node)
  | [] => (true, [])
  | (n, Node.file m) :: rest =>
    if m < cutoff then
      if fails n then (false, (n, Node.file m) :: rest)
      else sweepRun cutoff fails rest
    else
      ((sweepRun cutoff fails rest).1, (n, Node.file m) :: (sweepRun cutoff fails rest).2)
  | (n, Node.dir cs) :: rest =>
    ((sweepRun cutoff fails rest).1, (n, Node.dir cs) :: (sweepRun cutoff fails rest).2)

/-- `cleanup_old_files(folder, days)` (src/app.py lines 21-28) under the
normal semantics in which every `os.remove` succeeds. -/
def cleanup_old_files (now days : Int) (l : List (String × Node)) : List (String × Node) :=
  (sweepRun (cutoffOf now days) (fun _ => false) l).2

/-- An entry survives the sweep iff it is a subdirectory or a file whose
modification time is not strictly older than the cutoff. -/
def keepEntry (cutoff : Int) : String × Node → Bool
  | (_, Node.file m) => !decide (m < cutoff)
  | (_, Node.dir _) => true

/-- An entry is a regular file that is both eligible for deletion and
whose deletion raises. -/
def eligFails (cutoff : Int) (fails : String → Bool) : String × Node → Bool
  | (n, Node.file m) => decide (m < cutoff) && fails n
  | (_, Node.dir _) => false

theorem sweepRun_noFail (cutoff : Int) (l : List (String × Node)) :
    sweepRun cutoff (fun _ => false) l = (true, l.filter (keepEntry cutoff)) := by
  induction l with
  | nil => rfl
  | cons e rest ih =>
    obtain ⟨n, node⟩ := e
    cases node with
    | file m =>
      by_cases h : m < cutoff
      · simp [sweepRun, h, ih, keepEntry, List.filter_cons]
      · simp [sweepRun, h, ih, keepEntry, List.filter_cons]
    | dir cs =>
      simp [sweepRun, ih, keepEntry, List.filter_cons]

theorem cleanup_eq_filter (now days : Int) (l : List (String × Node)) :
    cleanup_old_files now days l = l.filter (keepEntry (cutoffOf now days)) := by
  unfold cleanup_old_files
  rw [sweepRun_noFail]

theorem cleanup_mem_file_iff (now days : Int) (l : List (String × Node)) (n : String) (m : Int) :
    (n, Node.file m) ∈ cleanup_old_files now days l ↔
      ((n, Node.file m) ∈ l ∧ ¬ (m < cutoffOf now days)) := by
  rw [cleanup_eq_filter, List.mem_filter]
  simp [keepEntry]

theorem cleanup_mem_dir_iff (now days : Int) (l : List (String × Node)) (n : String)
    (cs : List (String × Int)) :
    (n, Node.dir cs) ∈ cleanup_old_files now days l ↔ (n, Node.dir cs) ∈ l := by
  rw [cleanup_eq_filter, List.mem_filter]
  simp [keepEntry]

/-- C1: after `cleanup_old_files(folder, days)` on a category directory,
a direct-child regular file with modification time strictly older than
`now - days` no longer exists, a direct-child file not older than the
cutoff is untouched, and subdirectories survive with their contained
files unchanged (files inside subdirectories are never touched). -/
theorem cleanup_old_files_spec (now days : Int) (l : List (String × Node)) :
    (∀ n m, (n, Node.file m) ∈ cleanup_old_files now days l ↔
      ((n, Node.file m) ∈ l ∧ ¬ (m < cutoffOf now days)))
    ∧ (∀ n cs, (n, Node.dir cs) ∈ cleanup_old_files now days l ↔ (n, Node.dir cs) ∈ l) :=
  ⟨fun n m => cleanup_mem_file_iff now days l n m,
   fun n cs => cleanup_mem_dir_iff now days l n cs⟩

/-- C10: the age comparison is strict (`mod_time < cutoff`): a file whose
modification time is greater than or equal to the cutoff — in particular
exactly equal to it — is kept by the sweep. -/
theorem cleanup_strict_cutoff (now days : Int) (l : List (String × Node)) (n : String) (m : Int)
    (hm : cutoffOf now days ≤ m) (hl : (n, Node.file m) ∈ l) :
    (n, Node.file m) ∈ cleanup_old_files now days l :=
  (cleanup_mem_file_iff now days l n m).2 ⟨hl, by omega⟩

/-- Witness for C10 at the exact boundary: `now = 200000`, `days = 2`,
so the cutoff is `27200`; a file whose mtime is exactly `27200` is kept. -/
theorem cleanup_strict_cutoff_witness :
    ("f", Node.file 27200) ∈ cleanup_old_files 200000 2 [("f", Node.file 27200)] :=
  cleanup_strict_cutoff 200000 2 [("f", Node.file 27200)] "f" 27200 (by decide) (by decide)

/-- C2 counterexample: with cutoff 0, both "A" and "B" are eligible
(mtime -1); deleting "A" raises. The sweep aborts (`os.remove` is not
guarded by any try/except), so the other eligible file "B" is NOT
deleted, contradicting per-file fault isolation. -/
theorem sweep_fault_isolation_cex :
    (sweepRun 0 (fun n => n == "A") [("A", Node.file (-1)), ("B", Node.file (-1))]).1 = false
    ∧ ("B", Node.file (-1)) ∈
        (sweepRun 0 (fun n => n == "A") [("A", Node.file (-1)), ("B", Node.file (-1))]).2 := by
  decide

/-- C2 amended: a single delete failure aborts the sweep. If the entries
before the first failing eligible file contain no failing eligible file
themselves, they are swept normally, and the failing file together with
every entry after it is left untouched. -/
theorem sweepRun_abort_spec (cutoff : Int) (fails : String → Bool)
    (pre post : List (String × Node)) (n : String) (m : Int)
    (hm : m < cutoff) (hf : fails n = true)
    (hpre : ∀ p ∈ pre, eligFails cutoff fails p = false) :
    sweepRun cutoff fails (pre ++ (n, Node.file m) :: post)
      = (false, pre.filter (keepEntry cutoff) ++ (n, Node.file m) :: post) := by
  induction pre with
  | nil => simp [sweepRun, hm, hf]
  | cons p rest ih =>
    have hp := hpre p (by simp)
    have hrest : ∀ q ∈ rest, eligFails cutoff fails q = false :=
      fun q hq => hpre q (by simp [hq])
    obtain ⟨n1, node⟩ := p
    cases node with
    | file m1 =>
      by_cases h1 : m1 < cutoff
      · have hf1 : fails n1 = false := by simpa [eligFails, h1] using hp
        simp [sweepRun, h1, hf1, ih hrest, List.filter_cons, keepEntry]
      · simp [sweepRun, h1, ih hrest, List.filter_cons, keepEntry]
    | dir cs =>
      simp [sweepRun, ih hrest, List.filter_cons, keepEntry]

/-- Witness for the amended C2: cutoff 0, deleting "A" raises, the clean
prefix `[("X", file (-5))]` is swept, and "A" and "B" remain. -/
theorem sweepRun_abort_witness :
    sweepRun 0 (fun s => s == "A")
        ([("X", Node.file (-5))] ++ ("A", Node.file (-1)) :: [("B", Node.file (-1))])
      = (false, [("X", Node.file (-5))].filter (keepEntry 0)
          ++ ("A", Node.file (-1)) :: [("B", Node.file (-1))]) :=
  sweepRun_abort_spec 0 (fun s => s == "A") [("X", Node.file (-5))] [("B", Node.file (-1))]
    "A" (-1) (by decide) (by decide) (by decide)

/-- The three category directories created at startup
(`outputs/audio`, `outputs/pdf`, `outputs/logs`). -/
structure Store where
  audioDir : List (String × Node)
  pdfDir : List (String × Node)
  logsDir : List (String × Node)
deriving DecidableEq

/-- The startup sweep (src/app.py lines 30-31): `cleanup_old_files` is
called on `outputs/audio` and `outputs/pdf` with the default `days = 2`.
No call is made on `outputs/logs`. -/
def startupCleanup (now : Int) (s : Store) : Store :=
  { audioDir := cleanup_old_files now 2 s.audioDir,
    pdfDir := cleanup_old_files now 2 s.pdfDir,
    logsDir := s.logsDir }

/-- A store whose logs directory holds an activity log whose modification
time (0) is far older than the sweep cutoff at `now = 3 * 86400`. -/
def staleLogStore : Store :=
  { audioDir := [], pdfDir := [], logsDir := [("activity_log.txt", Node.file 0)] }

/-- C3 counterexample: the startup sweep is NOT applied to the log's
containing category directory. With a log file far older than the cutoff
and no append having refreshed it, startup leaves the logs directory
unchanged, whereas actually applying the sweep to that directory would
delete the log. So the claimed mechanism (sweep applied, exemption via
refreshed mtime) is not what the code does. -/
theorem log_sweep_cex :
    (startupCleanup (3 * 86400) staleLogStore).logsDir
      ≠ cleanup_old_files (3 * 86400) 2 staleLogStore.logsDir := by
  decide

/-- C3 amended: the log artifact is never evicted by the age-based sweep
because the startup sweep is applied only to the audio and pdf category
directories; the logs directory is never swept, so the log survives
regardless of its modification time. -/
theorem startup_logs_untouched (now : Int) (s : Store) :
    (startupCleanup now s).logsDir = s.logsDir := rfl

/-- `summarize_text(text)` (src/app.py lines 47-51): truncate the input to
its first 1000 characters when longer, then invoke the summarizer with
`max_length=150, min_length=40, do_sample=False`. The summarizer itself
(the Hugging Face pipeline) is an external collaborator, abstracted as
`S`; the result type is abstract so that a fallible service can be
plugged in as well. -/
def summarize_text {α : Type} (S : List Char → Nat → Nat → Bool → α) (text : List Char) : α :=
  if text.length > 1000 then S (text.take 1000) 150 40 false
  else S text 150 40 false

/-- C4: the summary is a function of the first 1000 characters only —
summarizing any input produces the same summary as summarizing just its
first 1000 characters (so in particular a 5000-character input is
summarized identically to its 1000-character truncation). -/
theorem summarize_truncation {α : Type} (S : List Char → Nat → Nat → Bool → α)
    (t : List Char) :
    summarize_text S t = summarize_text S (t.take 1000) := by
  unfold summarize_text
  by_cases h : t.length > 1000
  · have h2 : ¬ ((t.take 1000).length > 1000) := by
      rw [List.length_take]
      omega
    simp [h, h2]
  · have h3 : t.take 1000 = t := List.take_of_length_le (by omega)
    simp [h, h3]

/-- The text `log_entry(filename, summary)` (src/app.py lines 87-91)
writes on one call: a timestamped line, a preview line holding the first
150 characters of the summary followed by "...", and a blank separator
line. -/
def log_entry_text (now filename summary : List Char) : List Char :=
  (now ++ (" - Generated: ").toList ++ filename ++ ['\n'])
    ++ (("Summary Preview: ").toList ++ summary.take 150 ++ ("...").toList ++ ['\n', '\n'])

/-- `log_entry` opens the single log artifact in append mode: absent log
(`none`) behaves as the empty file (append mode creates it), and the new
entry is appended after the existing content. -/
def log_entry (oldLog : Option (List Char)) (now filename summary : List Char) : List Char :=
  oldLog.getD [] ++ log_entry_text now filename summary

/-- C7: each `log_entry` call appends exactly one entry to the (possibly
freshly created) log: the line `<timestamp> - Generated: <filename>`,
then the line `Summary Preview: <first 150 chars>...`, then a blank
separator line; the preview is at most 150 characters of the summary. -/
theorem log_entry_format (oldLog : Option (List Char)) (now filename summary : List Char) :
    log_entry oldLog now filename summary
      = oldLog.getD []
        ++ ((now ++ (" - Generated: ").toList ++ filename) ++ ['\n']
          ++ (("Summary Preview: ").toList ++ summary.take 150 ++ ("...").toList) ++ ['\n']
          ++ ['\n'])
    ∧ (summary.take 150).length ≤ 150 := by
  constructor
  · simp [log_entry, log_entry_text]
  · rw [List.length_take]
    omega

/-- What `display_logs` (src/app.py lines 94-101) shows: the full log
content in a text area when the log file exists, or the informational
"No logs available yet." message when it does not. -/
inductive LogView where
  | textArea (content : List Char)
  | info (msg : List Char)
deriving DecidableEq

/-- `display_logs` (src/app.py lines 94-101), with the filesystem state
of the log abstracted as `none` (absent) or `some content`. -/
def display_logs (log : Option (List Char)) : LogView :=
  match log with
  | some t => LogView.textArea t
  | none => LogView.info (("No logs available yet.").toList)

/-- C8: the log reader never fails — it is total: on an existing log it
returns the full content, and on an absent log it returns the explicit
"No logs available yet." signal rather than raising. -/
theorem display_logs_total :
    (∀ t, display_logs (some t) = LogView.textArea t)
    ∧ display_logs none = LogView.info (("No logs available yet.").toList) :=
  ⟨fun _ => rfl, rfl⟩

/-- `.encode("latin-1", "ignore")`: keep only characters representable in
one byte (code point below 256), as their byte values; every other
character is silently dropped. -/
def encodeLatin1Ignore (t : List Char) : List Nat :=
  t.filterMap (fun c => if c.toNat < 256 then some c.toNat else none)

/-- `.decode("latin-1")`: each byte decodes to the character with that
code point. -/
def decodeLatin1 (bs : List Nat) : List Char :=
  bs.map Char.ofNat

/-- The normalization applied to both texts in `export_summary_to_pdf`
(src/app.py lines 55-56): NFKD normalization (the `unicodedata.normalize`
call, an external table abstracted as `nfkd`), then the lossy latin-1
round trip. -/
def pdfNormalize (nfkd : List Char → List Char) (t : List Char) : List Char :=
  decodeLatin1 (encodeLatin1Ignore (nfkd t))

/-- The text content of the rendered report (src/app.py lines 54-84):
title, generation-timestamp line, and the two normalized body texts.
FPDF layout itself is an external collaborator. -/
structure PdfReport where
  title : List Char
  generatedLine : List Char
  summaryBody : List Char
  transcriptBody : List Char

/-- `export_summary_to_pdf(summary_text, transcript_text)` restricted to
the text it renders: both bodies pass through `pdfNormalize` before
layout. -/
def export_summary_to_pdf (nfkd : List Char → List Char)
    (nowLine summary_text transcript_text : List Char) : PdfReport :=
  { title := ("Voice Summary Report").toList,
    generatedLine := ("Generated on: ").toList ++ nowLine,
    summaryBody := pdfNormalize nfkd summary_text,
    transcriptBody := pdfNormalize nfkd transcript_text }

theorem decode_encode (l : List Char) :
    decodeLatin1 (encodeLatin1Ignore l) = l.filter (fun c => decide (c.toNat < 256)) := by
  induction l with
  | nil => rfl
  | cons c rest ih =>
    by_cases h : c.toNat < 256
    · simp [encodeLatin1Ignore, decodeLatin1, List.filterMap_cons, h, List.filter_cons,
        Char.ofNat_toNat] at *
      exact ih
    · simp [encodeLatin1Ignore, decodeLatin1, List.filterMap_cons, h, List.filter_cons] at *
      exact ih

theorem filter_all {α : Type} (p : α → Bool) (l : List α) :
    (l.filter p).all p = true := by
  rw [List.all_eq_true]
  intro a ha
  exact (List.mem_filter.1 ha).2

/-- C9: before layout both the summary and the body are normalized to
latin-1 (one byte per character): the rendered text is exactly the NFKD
normalization of the input with every character outside the latin-1
repertoire (code point ≥ 256) silently dropped, and every character that
is rendered is single-byte representable. -/
theorem pdf_normalization_spec (nfkd : List Char → List Char)
    (nowLine s t : List Char) :
    (export_summary_to_pdf nfkd nowLine s t).summaryBody
        = (nfkd s).filter (fun c => decide (c.toNat < 256))
    ∧ (export_summary_to_pdf nfkd nowLine s t).transcriptBody
        = (nfkd t).filter (fun c => decide (c.toNat < 256))
    ∧ (export_summary_to_pdf nfkd nowLine s t).summaryBody.all
        (fun c => decide (c.toNat < 256)) = true
    ∧ (export_summary_to_pdf nfkd nowLine s t).transcriptBody.all
        (fun c => decide (c.toNat < 256)) = true := by
  refine ⟨decode_encode (nfkd s), decode_encode (nfkd t), ?_, ?_⟩
  · show (pdfNormalize nfkd s).all (fun c => decide (c.toNat < 256)) = true
    rw [pdfNormalize, decode_encode]
    exact filter_all _ _
  · show (pdfNormalize nfkd t).all (fun c => decide (c.toNat < 256)) = true
    rw [pdfNormalize, decode_encode]
    exact filter_all _ _

/-- Python's `str.endswith(suffix)`: the last `suffix.length` characters
of the string equal the suffix. -/
def pyEndsWith (l s : List Char) : Bool :=
  l.drop (l.length - s.length) == s

theorem pyEndsWith_eq_of_length (l s1 s2 : List Char) (h1 : pyEndsWith l s1 = true)
    (h2 : pyEndsWith l s2 = true) (hlen : s1.length = s2.length) : s1 = s2 := by
  unfold pyEndsWith at h1 h2
  have e1 : l.drop (l.length - s1.length) = s1 := eq_of_beq h1
  have e2 : l.drop (l.length - s2.length) = s2 := eq_of_beq h2
  rw [← e1, ← e2, hlen]

theorem pyEndsWith_disjoint (l s1 s2 : List Char) (h1 : pyEndsWith l s1 = true)
    (hlen : s1.length = s2.length) (hne : s1 ≠ s2) : pyEndsWith l s2 = false := by
  cases h2 : pyEndsWith l s2
  · rfl
  · exact absurd (pyEndsWith_eq_of_length l s1 s2 h1 h2 hlen) hne

/-- The fixed intermediate transcoding path `"converted.wav"`. -/
def convertedWavPath : List Char := ("converted.wav").toList

/-- The `.mp3` suffix tested by the handler. -/
def mp3Ext : List Char := (".mp3").toList

/-- The `.m4a` suffix tested by the handler. -/
def m4aExt : List Char := (".m4a").toList

/-- The `.wav` suffix. -/
def wavExt : List Char := (".wav").toList

/-- The extension dispatch of the upload handler (src/app.py lines
119-128): which file is handed to the Transcription Service, and whether
transcoding was invoked to produce it. `.mp3` and `.m4a` uploads are
transcoded to the fixed intermediate path; anything else (in particular
`.wav`) is passed through on its original saved path. -/
def file_to_transcribe_choice (name audio_path : List Char) : Bool × List Char :=
  if pyEndsWith name mp3Ext then (true, convertedWavPath)
  else if pyEndsWith name m4aExt then (true, convertedWavPath)
  else (false, audio_path)

/-- The body of the handler's try-block (src/app.py lines 117-137):
optional conversion, then transcription, then summarization, each an
external collaborator which may raise (modelled in `Except`). Returns
the transcript and the summary on success, or the first failure. -/
def audioPipeline (conv : List Char → Except (List Char) Unit)
    (tr : List Char → Except (List Char) (List Char))
    (smz : List Char → Nat → Nat → Bool → Except (List Char) (List Char))
    (name audio_path : List Char) : Except (List Char) (List Char × List Char) :=
  (if (file_to_transcribe_choice name audio_path).1 then
      Except.map (fun _ => (file_to_transcribe_choice name audio_path).2) (conv audio_path)
    else Except.ok (file_to_transcribe_choice name audio_path).2).bind (fun f =>
  (tr f).bind (fun transcript =>
  Except.map (fun s => (transcript, s)) (summarize_text smz transcript)))

/-- `uploaded_file.name.split(".")[-1]`: the piece after the last dot, or
the whole name when it contains no dot. -/
def extOf (name : List Char) : List Char :=
  if name.contains '.' then (name.reverse.takeWhile (fun c => c ≠ '.')).reverse
  else name

/-- The path the raw upload is saved to before the try-block
(src/app.py lines 110-114): `outputs/audio/input_<timestamp>.<ext>`. -/
def savedAudioPath (ts name : List Char) : List Char :=
  ("outputs/audio/input_").toList ++ ts ++ ['.'] ++ extOf name

/-- The user-visible outcome of one audio upload interaction: either the
transcript and summary are displayed, or the single `st.error` message of
the top-level except-block. -/
inductive HandlerOutcome where
  | success (transcript summary : List Char)
  | errorMsg (msg : List Char)
deriving DecidableEq

/-- The audio upload handler (src/app.py lines 109-147): save the raw
upload to disk, then run the pipeline inside the try-block; any raised
failure is caught and surfaced as one `Error: <description>` message.
Returns the files on disk and the user-visible outcome. -/
def audioHandler (conv : List Char → Except (List Char) Unit)
    (tr : List Char → Except (List Char) (List Char))
    (smz : List Char → Nat → Nat → Bool → Except (List Char) (List Char))
    (name ts : List Char) (fs : List (List Char)) :
    List (List Char) × HandlerOutcome :=
  match audioPipeline conv tr smz name (savedAudioPath ts name) with
  | Except.ok r => (savedAudioPath ts name :: fs, HandlerOutcome.success r.1 r.2)
  | Except.error e => (savedAudioPath ts name :: fs, HandlerOutcome.errorMsg (("Error: ").toList ++ e))

/-- C5: in audio-mode, any exception raised during conversion,
transcription, or summarization is caught at the top level and surfaced
as the single user-visible message `Error: <description>`, and the
already-written uploaded audio artifact is still on disk afterwards (no
rollback of partial artifacts on error). -/
theorem audio_error_handling (conv : List Char → Except (List Char) Unit)
    (tr : List Char → Except (List Char) (List Char))
    (smz : List Char → Nat → Nat → Bool → Except (List Char) (List Char))
    (name ts : List Char) (fs : List (List Char)) (e : List Char)
    (h : audioPipeline conv tr smz name (savedAudioPath ts name) = Except.error e) :
    (audioHandler conv tr smz name ts fs).2
        = HandlerOutcome.errorMsg (("Error: ").toList ++ e)
    ∧ savedAudioPath ts name ∈ (audioHandler conv tr smz name ts fs).1 := by
  simp [audioHandler, h]

/-- A conversion stub that always succeeds. -/
def okConv : List Char → Except (List Char) Unit := fun _ => Except.ok ()

/-- A transcription stub that always raises with description "boom". -/
def failTr : List Char → Except (List Char) (List Char) :=
  fun _ => Except.error (("boom").toList)

/-- A summarization stub that returns its input unchanged. -/
def okSmz : List Char → Nat → Nat → Bool → Except (List Char) (List Char) :=
  fun t _ _ _ => Except.ok t

/-- Witness for C5: a `.wav` upload whose transcription raises "boom"
yields the message `Error: boom`, and the saved upload is on disk. -/
theorem audio_error_handling_witness :
    (audioHandler okConv failTr okSmz (("a.wav").toList) (("ts").toList) []).2
        = HandlerOutcome.errorMsg (("Error: ").toList ++ ("boom").toList)
    ∧ savedAudioPath (("ts").toList) (("a.wav").toList)
        ∈ (audioHandler okConv failTr okSmz (("a.wav").toList) (("ts").toList) []).1 :=
  audio_error_handling okConv failTr okSmz (("a.wav").toList) (("ts").toList) []
    (("boom").toList) (by rfl)

/-- C6: an upload whose name ends in `.mp3` or `.m4a` is transcoded to
the fixed intermediate path `converted.wav`, and (when conversion
succeeds) the Transcription Service is invoked on that intermediate
path, not the original upload; an upload whose name ends in `.wav` is
not transcoded and the Transcription Service is invoked directly on the
original saved path. -/
theorem transcode_dispatch (conv : List Char → Except (List Char) Unit)
    (tr : List Char → Except (List Char) (List Char))
    (smz : List Char → Nat → Nat → Bool → Except (List Char) (List Char))
    (name audio_path : List Char) :
    (pyEndsWith name mp3Ext = true ∨ pyEndsWith name m4aExt = true →
      file_to_transcribe_choice name audio_path = (true, convertedWavPath)
      ∧ (conv audio_path = Except.ok () →
          audioPipeline conv tr smz name audio_path
            = (tr convertedWavPath).bind (fun transcript =>
                Except.map (fun s => (transcript, s)) (summarize_text smz transcript))))
    ∧ (pyEndsWith name wavExt = true →
      file_to_transcribe_choice name audio_path = (false, audio_path)
      ∧ audioPipeline conv tr smz name audio_path
          = (tr audio_path).bind (fun transcript =>
              Except.map (fun s => (transcript, s)) (summarize_text smz transcript))) := by
  constructor
  · intro hor
    have hchoice : file_to_transcribe_choice name audio_path = (true, convertedWavPath) := by
      rcases hor with hm3 | hm4
      · simp [file_to_transcribe_choice, hm3]
      · have hm3 : pyEndsWith name mp3Ext = false :=
          pyEndsWith_disjoint name m4aExt mp3Ext hm4 (by decide) (by decide)
        simp [file_to_transcribe_choice, hm3, hm4]
    refine ⟨hchoice, fun hconv => ?_⟩
    simp [audioPipeline, hchoice, hconv, Except.map, Except.bind]
  · intro hw
    have hm3 : pyEndsWith name mp3Ext = false :=
      pyEndsWith_disjoint name wavExt mp3Ext hw (by decide) (by decide)
    have hm4 : pyEndsWith name m4aExt = false :=
      pyEndsWith_disjoint name wavExt m4aExt hw (by decide) (by decide)
    have hchoice : file_to_transcribe_choice name audio_path = (false, audio_path) := by
      simp [file_to_transcribe_choice, hm3, hm4]
    refine ⟨hchoice, ?_⟩
    simp [audioPipeline, hchoice, Except.bind]

/-- Witness for C6: an `.mp3` upload is routed through `converted.wav`;
a `.wav` upload is transcribed on its original path. -/
theorem transcode_dispatch_witness :
    (file_to_transcribe_choice (("a.mp3").toList) (("p").toList) = (true, convertedWavPath)
      ∧ audioPipeline okConv failTr okSmz (("a.mp3").toList) (("p").toList)
          = (failTr convertedWavPath).bind (fun transcript =>
              Except.map (fun s => (transcript, s)) (summarize_text okSmz transcript)))
    ∧ (file_to_transcribe_choice (("b.wav").toList) (("p").toList) = (false, ("p").toList)
      ∧ audioPipeline okConv failTr okSmz (("b.wav").toList) (("p").toList)
          = (failTr (("p").toList)).bind (fun transcript =>
              Except.map (fun s => (transcript, s)) (summarize_text okSmz transcript))) := by
  constructor
  · have h := (transcode_dispatch okConv failTr okSmz (("a.mp3").toList) (("p").toList)).1
      (Or.inl (by decide))
    exact ⟨h.1, h.2 rfl⟩
  · exact (transcode_dispatch okConv failTr okSmz (("b.wav").toList) (("p").toList)).2
      (by decide)
